import Mathlib

/-!
Shallow embedding of the `ticket-id` rule of `commitlint-rs`
(`src/rule/ticket_id.rs`) and verification of its specification.

The rule scans a parsed commit `Message` for a JIRA-style ticket
reference matching the regular expression `#[A-Z]+-\d+` and enforces
configurable location / multiplicity constraints.
-/

namespace Commitlint

/-- Modelled from the spec: ordered severity classification, at minimum
Warning and Error (`Level` lives in `rule/mod.rs`, outside the provided
sources). -/
inductive Level where
  | Warning : Level
  | Error : Level
deriving DecidableEq, Repr

/-- Modelled from the spec: the result of one failed rule check, a severity
plus a human-readable message (`Violation` lives in `result.rs`, outside the
provided sources). -/
structure Violation where
  level : Level
  message : String
deriving DecidableEq, Repr

/-- Modelled from the spec: the parsed representation of one commit message
(`Message` lives in `message.rs`, outside the provided sources; its fields
are visible in the tests of `ticket_id.rs`). The ticket-id rule only reads
`subject` and `body`. -/
structure Message where
  raw : String
  subject : Option String
  body : Option String
  description : Option String
  rtype : Option String
  scope : Option String
  footers : Option (List String)
deriving DecidableEq, Repr

/-- Configuration record of the ticket-id rule (struct `TicketId`). -/
structure TicketId where
  level : Option Level
  unique : Bool
  subject : Bool
  body : Bool
  body_last_line : Bool
deriving DecidableEq, Repr

/-! ### Regular-expression model

The rule compiles the fixed pattern `#[A-Z]+-\d+` with `Regex::new` at every
`validate` call; compilation failure is reported as a violation.  We model
the fragment of regex syntax this pattern uses: literal characters, a
single-range character class `[a-b]`, the digit class `\d`, and the `+`
quantifier over a single atom.  A parse failure yields `none`, mirroring
`Regex::new` returning `Err`. -/

/-- One atomic regex element. -/
inductive Atom where
  | lit : Char → Atom
  | range : Char → Char → Atom
  | digitCls : Atom
deriving DecidableEq, Repr

/-- A parsed regex token: an atom, optionally `+`-quantified. -/
structure Tok where
  atom : Atom
  plus : Bool
deriving DecidableEq, Repr

/-- Whether a single character is matched by an atom.  For `\d` the Rust
regex crate matches Unicode decimal digits; the ASCII digits modelled here
are the ones the ticket pattern is used with. -/
def atomMatch : Atom → Char → Bool
  | .lit c, d => c = d
  | .range lo hi, d => lo ≤ d && d ≤ hi
  | .digitCls, d => '0' ≤ d && d ≤ '9'

/-- Whether the token sequence matches some prefix of the character list
(with backtracking for `+`, i.e. `e+` behaves as `e e*`). -/
def matchToks : List Tok → List Char → Bool
  | [], _ => true
  | _ :: _, [] => false
  | t :: ts, c :: cs =>
    atomMatch t.atom c &&
      (if t.plus then matchToks ts cs || matchToks (t :: ts) cs
       else matchToks ts cs)

/-- Whether the token sequence matches anywhere in the character list
(`Regex::is_match` semantics: an unanchored search). -/
def searchMatch (ts : List Tok) : List Char → Bool
  | [] => matchToks ts []
  | c :: cs => matchToks ts (c :: cs) || searchMatch ts cs

/-- Number of positions (suffixes) of the character list at which the token
sequence matches; used to state multiplicity of pattern occurrences inside a
single string. -/
def matchPositions (ts : List Tok) : List Char → Nat
  | [] => if matchToks ts [] then 1 else 0
  | c :: cs => (if matchToks ts (c :: cs) then 1 else 0) + matchPositions ts cs

/-- Parse one regex atom from the front of the input, returning the atom and
the remaining input; `none` on syntax the modelled fragment rejects
(dangling quantifier, unclosed class, trailing escape, ...). -/
def parseAtom : List Char → Option (Atom × List Char)
  | [] => none
  | '\\' :: 'd' :: rest => some (.digitCls, rest)
  | '\\' :: _ => none
  | '[' :: lo :: '-' :: hi :: ']' :: rest => some (.range lo hi, rest)
  | '[' :: _ => none
  | ']' :: _ => none
  | '+' :: _ => none
  | '*' :: _ => none
  | '?' :: _ => none
  | '(' :: _ => none
  | ')' :: _ => none
  | c :: rest => some (.lit c, rest)

/-- Fuelled parser for a whole pattern: a sequence of atoms, each optionally
followed by `+`.  The fuel only bounds recursion depth; `parseAtom` consumes
at least one character per step, so an initial fuel of the input length
suffices. -/
def parseToksAux : Nat → List Char → Option (List Tok)
  | _, [] => some []
  | 0, _ :: _ => none
  | fuel + 1, cs =>
    match parseAtom cs with
    | none => none
    | some (a, rest) =>
      match rest with
      | '+' :: rest2 => (parseToksAux fuel rest2).map (⟨a, true⟩ :: ·)
      | _ => (parseToksAux fuel rest).map (⟨a, false⟩ :: ·)

/-- Parse a pattern string into tokens; `none` models `Regex::new`
returning `Err`. -/
def parseToks (cs : List Char) : Option (List Tok) :=
  parseToksAux cs.length cs

/-- The fixed pattern literal `JIRA_TICKET_REGEX` of `ticket_id.rs`. -/
def JIRA_TICKET_REGEX : String := "#[A-Z]+-\\d+"

/-- The token form of `JIRA_TICKET_REGEX`. -/
def jiraToks : List Tok :=
  [⟨.lit '#', false⟩, ⟨.range 'A' 'Z', true⟩, ⟨.lit '-', false⟩,
   ⟨.digitCls, true⟩]

/-- Unanchored match of the ticket pattern against a string
(`regex.is_match` with the compiled `JIRA_TICKET_REGEX`). -/
def isTicketMatch (s : String) : Bool :=
  searchMatch jiraToks s.data

/-! ### Rust `str::lines()` model

`lines()` yields the segments between `'\n'` separators; a segment that was
terminated by `'\n'` additionally loses one trailing `'\r'`; the final line
terminator is optional, so an empty final segment is dropped (and an empty
string yields no lines at all). -/

/-- Split a character list at every `'\n'`, keeping every (possibly empty)
segment, like `String.splitOn "\n"`. -/
def splitNl : List Char → List (List Char)
  | [] => [[]]
  | c :: cs =>
    if c = '\n' then [] :: splitNl cs
    else
      match splitNl cs with
      | [] => [[c]]
      | l :: ls => (c :: l) :: ls

/-- Remove one trailing carriage return, if present. -/
def stripCr (l : List Char) : List Char :=
  if l.getLast? = some '\r' then l.dropLast else l

/-- The lines of a body string, with Rust `str::lines()` semantics. -/
def rustLines (s : List Char) : List (List Char) :=
  let parts := splitNl s
  let init := parts.dropLast.map stripCr
  match parts.getLast? with
  | some [] => init
  | none => init
  | some last => init ++ [last]

/-- Whether the final line of a body (in `lines()` order, empty lines
included) matches the ticket pattern. -/
def lastLineMatches (s : String) : Bool :=
  match (rustLines s.data).getLast? with
  | some l => searchMatch jiraToks l
  | none => false

/-! ### The ticket-id rule -/

/-- The rule name constant `NAME` of the `Rule` implementation. -/
def TicketId.NAME : String := "ticket-id"

/-- The default severity constant `LEVEL` of the `Rule` implementation. -/
def TicketId.LEVEL : Level := Level.Error

/-- Violation text of the `match_found == 0` branch (also the generic
`message` of the rule). -/
def missingMessage : String :=
  "Ticket ID is missing in either subject or body of commit message! It should be on last line if inside body, or at the end of subject!"

/-- Violation text of the `unique` branch taken when the last body line also
holds a ticket. -/
def duplicatedBodyMessage : String :=
  "Ticket ID is duplicated in body of commit message!"

/-- Violation text of the general `unique` branch. -/
def duplicatedMessage : String :=
  "Ticket ID is duplicated in either subject or body of commit message!"

/-- Violation text of the `body_last_line` branch. -/
def lastLineMessage : String :=
  "Ticket ID should be on last line in body!"

/-- Violation text of the unreachable pattern-compilation-failure branch;
the Rust code interpolates the pattern and the regex compiler error. -/
def invalidRegexMessage : String :=
  "Invalid regex " ++ JIRA_TICKET_REGEX ++ ": <compile error>"

/-- Loop body of the scan over body lines (lines 60-68 of `ticket_id.rs`):
a matching line increments `match_found`, and sets `last_line_has_ticket`
when `body_last_line` is enabled and the line equals the last line. -/
def scanStep (p q : List Char → Bool) (acc : Nat × Bool) (line : List Char) :
    Nat × Bool :=
  if p line then (acc.1 + 1, if q line then true else acc.2) else acc

/-- The counting phase of `validate` (lines 38-69 of `ticket_id.rs`):
returns `(match_found, subject_has_ticket, last_line_has_ticket)` for the
given compiled pattern. -/
def TicketId.scan (self : TicketId) (toks : List Tok) (m : Message) :
    Nat × Bool × Bool :=
  let subjectHit := self.subject && searchMatch toks (m.subject.getD "").data
  let mf0 : Nat := if subjectHit then 1 else 0
  let bodyRes :=
    if self.body then
      let lines := rustLines (m.body.getD "").data
      let lastLine := lines.getLast?
      lines.foldl
        (scanStep (fun line => searchMatch toks line)
          (fun line => self.body_last_line && (lastLine == some line)))
        (mf0, false)
    else (mf0, false)
  (bodyRes.1, subjectHit, bodyRes.2)

/-- The `match_found` counter of `validate`, for the actual ticket
pattern. -/
def TicketId.matchFound (self : TicketId) (m : Message) : Nat :=
  (self.scan jiraToks m).1

/-- The `subject_has_ticket` flag of `validate`. -/
def TicketId.subjectHasTicket (self : TicketId) (m : Message) : Bool :=
  (self.scan jiraToks m).2.1

/-- The `last_line_has_ticket` flag of `validate`. -/
def TicketId.lastLineHasTicket (self : TicketId) (m : Message) : Bool :=
  (self.scan jiraToks m).2.2

/-- Direct translation of `TicketId::validate` (lines 37-111 of
`ticket_id.rs`). -/
def TicketId.validate (self : TicketId) (m : Message) : Option Violation :=
  match parseToks JIRA_TICKET_REGEX.data with
  | none => some ⟨self.level.getD TicketId.LEVEL, invalidRegexMessage⟩
  | some toks =>
    let scanned := self.scan toks m
    let matchFound := scanned.1
    let subjectHit := scanned.2.1
    let lastLineHit := scanned.2.2
    if matchFound == 0 && (self.body || self.subject) then
      some ⟨self.level.getD TicketId.LEVEL, missingMessage⟩
    else if self.unique && (lastLineHit && decide (matchFound > 1)) then
      some ⟨self.level.getD TicketId.LEVEL, duplicatedBodyMessage⟩
    else if self.unique && decide (matchFound > 1) then
      some ⟨self.level.getD TicketId.LEVEL, duplicatedMessage⟩
    else if self.body_last_line &&
        (!lastLineHit && decide (matchFound ≥ 1) &&
          !((m.body.getD "") == "") && !subjectHit) then
      some ⟨self.level.getD TicketId.LEVEL, lastLineMessage⟩
    else none

/-- The `Default` instance of `TicketId`: level `Some(Error)`, `unique`
off, `subject`, `body` and `body_last_line` on. -/
def TicketId.default : TicketId :=
  ⟨some TicketId.LEVEL, false, true, true, true⟩

/-- The default configuration with `unique` switched on, otherwise
untouched. -/
def uniqueCfg : TicketId :=
  { TicketId.default with unique := true }

/-! ### Concrete commit messages used as witnesses and counterexamples -/

/-- A message without any ticket reference. -/
def msgNoTicket : Message :=
  ⟨"raw", some "no ticket here", some "plain body", none, none, none, none⟩

/-- Subject without ticket; body is a matching line followed by one empty
line (so the final line of `lines()` is the empty string). -/
def msgTrailingBlank : Message :=
  ⟨"raw", some "fix things", some "#AB-1\n\n", none, none, none, none⟩

/-- Subject without ticket; body whose final line holds the ticket. -/
def msgTicketLastLine : Message :=
  ⟨"raw", some "fix things", some "intro\n#AB-1", none, none, none, none⟩

/-- Subject with a ticket; body with a ticket on the first of two lines and
none on the last. -/
def msgSubjectAndMidBody : Message :=
  ⟨"raw", some "feat: something #AB-12", some "intro #CD-3\nend",
   none, none, none, none⟩

/-- Subject with a ticket; body with tickets on both of its two lines. -/
def msgThreeTickets : Message :=
  ⟨"raw", some "feat #AB-1", some "#CD-2\n#EF-3", none, none, none, none⟩

/-- Subject with a ticket; body with a ticket only on its last line. -/
def msgSubjectAndLastLine : Message :=
  ⟨"raw", some "feat #AB-1", some "note\n#CD-2", none, none, none, none⟩

/-- Subject with two ticket occurrences; body without any. -/
def msgDoubleSubject : Message :=
  ⟨"raw", some "feat #AB-1 and #CD-2", some "plain body",
   none, none, none, none⟩

/-- A message whose `raw`, `description`, `type`, `scope` and `footers`
fields are populated. -/
def msgRichMeta : Message :=
  ⟨"raw A", some "subj #AB-1", some "body", some "descr", some "feat",
   some "scope", some ["footer"]⟩

/-- Same `subject` and `body` as `msgRichMeta`, all other fields
different. -/
def msgPoorMeta : Message :=
  ⟨"completely different raw", some "subj #AB-1", some "body",
   none, none, none, none⟩

/-! ### Characterization lemmas -/

theorem parseToks_jira : parseToks JIRA_TICKET_REGEX.data = some jiraToks := by
  decide

theorem scanStep_foldl_fst (p q : List Char → Bool) (L : List (List Char))
    (n : Nat) (b : Bool) :
    (L.foldl (scanStep p q) (n, b)).1 = n + L.countP p := by
  induction L generalizing n b with
  | nil => simp
  | cons l L ih =>
    simp only [List.foldl_cons, List.countP_cons]
    by_cases hp : p l
    · by_cases hq : q l <;> simp [scanStep, hp, hq, ih] <;> omega
    · simp [scanStep, hp, ih]

theorem scanStep_foldl_snd (p q : List Char → Bool) (L : List (List Char))
    (n : Nat) (b : Bool) :
    (L.foldl (scanStep p q) (n, b)).2 = (b || L.any fun l => p l && q l) := by
  induction L generalizing n b with
  | nil => simp
  | cons l L ih =>
    simp only [List.foldl_cons, List.any_cons]
    by_cases hp : p l
    · by_cases hq : q l <;>
        simp [scanStep, hp, hq, ih, Bool.or_assoc]
    · simp [scanStep, hp, ih]

theorem any_eq_getLast?_check (p : List Char → Bool) (L : List (List Char)) :
    (L.any fun l => p l && (L.getLast? == some l)) =
      (match L.getLast? with
       | some last => p last
       | none => false) := by
  cases hL : L.getLast? with
  | none =>
    have hnil : L = [] := List.getLast?_eq_none_iff.mp hL
    subst hnil
    simp
  | some last =>
    simp only [hL]
    cases hp : p last with
    | true =>
      have hmem : last ∈ L := by
        obtain ⟨ys, rfl⟩ := List.getLast?_eq_some_iff.mp hL
        simp
      exact List.any_eq_true.mpr ⟨last, hmem, by simp [hp]⟩
    | false =>
      refine List.any_eq_false.mpr ?_
      intro x hx hcontra
      simp only [Bool.and_eq_true, beq_iff_eq, Option.some.injEq] at hcontra
      obtain ⟨hpx, hlx⟩ := hcontra
      rw [← hlx] at hpx
      rw [hp] at hpx
      exact Bool.false_ne_true hpx


theorem scan_fst (self : TicketId) (toks : List Tok) (m : Message) :
    (self.scan toks m).1 =
      (if self.subject && searchMatch toks (m.subject.getD "").data then 1
       else 0) +
      (if self.body then
        (rustLines (m.body.getD "").data).countP fun l => searchMatch toks l
       else 0) := by
  unfold TicketId.scan
  cases hb : self.body <;> simp [hb, scanStep_foldl_fst]

theorem scan_snd_fst (self : TicketId) (toks : List Tok) (m : Message) :
    (self.scan toks m).2.1 =
      (self.subject && searchMatch toks (m.subject.getD "").data) := by
  unfold TicketId.scan
  cases hb : self.body <;> simp [hb]

theorem scan_snd_snd (self : TicketId) (m : Message) :
    (self.scan jiraToks m).2.2 =
      (self.body && (self.body_last_line &&
        lastLineMatches (m.body.getD ""))) := by
  unfold TicketId.scan
  cases hb : self.body
  · simp [hb]
  · simp only [hb, Bool.true_and, if_true]
    rw [scanStep_foldl_snd]
    cases hbl : self.body_last_line
    · simp
    · simp only [Bool.true_and, Bool.false_or]
      rw [any_eq_getLast?_check]
      unfold lastLineMatches
      rfl

theorem matchFound_eq (self : TicketId) (m : Message) :
    self.matchFound m =
      (if self.subject && isTicketMatch (m.subject.getD "") then 1 else 0) +
      (if self.body then
        (rustLines (m.body.getD "").data).countP fun l =>
          searchMatch jiraToks l
       else 0) :=
  scan_fst self jiraToks m

theorem subjectHasTicket_eq (self : TicketId) (m : Message) :
    self.subjectHasTicket m =
      (self.subject && isTicketMatch (m.subject.getD "")) :=
  scan_snd_fst self jiraToks m

theorem lastLineHasTicket_eq (self : TicketId) (m : Message) :
    self.lastLineHasTicket m =
      (self.body && (self.body_last_line &&
        lastLineMatches (m.body.getD ""))) :=
  scan_snd_snd self m

/-- Unfolding of `validate` with the (always successful) pattern
compilation resolved: the four violation branches in source order. -/
theorem validate_unfold (self : TicketId) (m : Message) :
    self.validate m =
      (if self.matchFound m == 0 && (self.body || self.subject) then
        some ⟨self.level.getD TicketId.LEVEL, missingMessage⟩
      else if self.unique && (self.lastLineHasTicket m &&
          decide (self.matchFound m > 1)) then
        some ⟨self.level.getD TicketId.LEVEL, duplicatedBodyMessage⟩
      else if self.unique && decide (self.matchFound m > 1) then
        some ⟨self.level.getD TicketId.LEVEL, duplicatedMessage⟩
      else if self.body_last_line &&
          (!self.lastLineHasTicket m && decide (self.matchFound m ≥ 1) &&
            !((m.body.getD "") == "") && !self.subjectHasTicket m) then
        some ⟨self.level.getD TicketId.LEVEL, lastLineMessage⟩
      else none) := by
  unfold TicketId.validate
  rw [parseToks_jira]
  rfl

theorem searchMatch_of_positions (ts : List Tok) (cs : List Char)
    (h : 1 ≤ matchPositions ts cs) : searchMatch ts cs = true := by
  induction cs with
  | nil =>
    unfold matchPositions at h
    unfold searchMatch
    cases hm : matchToks ts [] with
    | true => rfl
    | false => rw [hm] at h; simp at h
  | cons c cs ih =>
    unfold matchPositions at h
    unfold searchMatch
    cases hm : matchToks ts (c :: cs) with
    | true => simp
    | false =>
      rw [hm] at h
      have h' : 1 ≤ matchPositions ts cs := by
        simp only [Bool.false_eq_true, if_false, Nat.zero_add] at h
        exact h
      simp [ih h']

theorem countP_pos_of_lastLineMatches (s : String)
    (h : lastLineMatches s = true) :
    1 ≤ (rustLines s.data).countP fun l => searchMatch jiraToks l := by
  unfold lastLineMatches at h
  rcases hL : (rustLines s.data).getLast? with _ | last
  · rw [hL] at h; simp at h
  · rw [hL] at h
    have hmem : last ∈ rustLines s.data := by
      obtain ⟨ys, hys⟩ := List.getLast?_eq_some_iff.mp hL
      rw [hys]; simp
    exact List.countP_pos_iff.mpr ⟨last, hmem, h⟩

theorem lastLineMatches_eq_false_of_no_match (s : String)
    (h : ((rustLines s.data).all fun l => !searchMatch jiraToks l) = true) :
    lastLineMatches s = false := by
  unfold lastLineMatches
  rcases hL : (rustLines s.data).getLast? with _ | last
  · rfl
  · have hmem : last ∈ rustLines s.data := by
      obtain ⟨ys, hys⟩ := List.getLast?_eq_some_iff.mp hL
      rw [hys]; simp
    have := List.all_eq_true.mp h last hmem
    simpa using this

/-! ### The claims -/

/-- C6: for every Message and every TicketId configuration with
`subject = false` and `body = false`, `validate` returns `None`, regardless
of the message content and of the `unique`, `body_last_line` and `level`
settings. -/
theorem C6_disabled_locations_no_violation (lvl : Option Level)
    (uniq bll : Bool) (m : Message) :
    TicketId.validate ⟨lvl, uniq, false, false, bll⟩ m = none := by
  have hmf : TicketId.matchFound ⟨lvl, uniq, false, false, bll⟩ m = 0 := by
    rw [matchFound_eq]; simp
  rw [validate_unfold, hmf]
  simp

/-- C7: an empty body string is treated identically to an absent body: for
every configuration and every message, `validate` with `body = Some("")`
returns the same result as with `body = None` (both reduce to the empty
string via `unwrap_or_default`). -/
theorem C7_empty_body_eq_absent_body (self : TicketId) (m : Message) :
    self.validate { m with body := some "" } =
      self.validate { m with body := none } := rfl

/-- C8: every violation `validate` returns carries the resolved level: the
configuration's `level` override when set, otherwise the rule's default
level `LEVEL = Error`; this holds for all four violation branches alike. -/
theorem C8_violation_carries_resolved_level (self : TicketId) (m : Message)
    (v : Violation) (h : self.validate m = some v) :
    v.level = self.level.getD TicketId.LEVEL := by
  rw [validate_unfold] at h
  split_ifs at h <;> first
    | exact Option.noConfusion h
    | (injection h with h'; subst h'; rfl)

/-- C8 witness: the missing-ticket violation on a concrete message carries
the default configuration's resolved level. -/
theorem C8_witness :
    (Violation.mk Level.Error missingMessage).level =
      TicketId.default.level.getD TicketId.LEVEL :=
  C8_violation_carries_resolved_level TicketId.default msgNoTicket
    ⟨Level.Error, missingMessage⟩ (by decide)

/-- C9: the pattern-compilation-failure branch is unreachable: the fixed
pattern `#[A-Z]+-\d+` parses successfully, so `validate` never returns a
violation whose message reports an invalid regex, for any message and any
configuration. -/
theorem C9_invalid_regex_branch_unreachable (self : TicketId) (m : Message)
    (v : Violation) (h : self.validate m = some v) :
    v.message ≠ invalidRegexMessage := by
  rw [validate_unfold] at h
  split_ifs at h <;> first
    | exact Option.noConfusion h
    | (injection h with h'; subst h'; dsimp only; decide)

/-- C9 witness: the concrete missing-ticket violation does not report an
invalid regex. -/
theorem C9_witness :
    (Violation.mk Level.Error missingMessage).message ≠ invalidRegexMessage :=
  C9_invalid_regex_branch_unreachable TicketId.default msgNoTicket
    ⟨Level.Error, missingMessage⟩ (by decide)

/-- C10: `validate` depends only on the message's `subject` and `body`
fields and on the configuration: two messages equal on those two fields get
equal results under every configuration, whatever their `raw`,
`description`, `type`, `scope` and `footers`. -/
theorem C10_reads_only_subject_and_body (self : TicketId) (m₁ m₂ : Message)
    (hs : m₁.subject = m₂.subject) (hb : m₁.body = m₂.body) :
    self.validate m₁ = self.validate m₂ := by
  obtain ⟨r₁, s₁, b₁, d₁, t₁, sc₁, f₁⟩ := m₁
  obtain ⟨r₂, s₂, b₂, d₂, t₂, sc₂, f₂⟩ := m₂
  dsimp only at hs hb
  subst hs; subst hb
  rfl

/-- C10 witness: two concrete messages sharing `subject` and `body` but
differing everywhere else validate identically. -/
theorem C10_witness :
    TicketId.default.validate msgRichMeta =
      TicketId.default.validate msgPoorMeta :=
  C10_reads_only_subject_and_body TicketId.default msgRichMeta msgPoorMeta
    rfl rfl

/-- C1 counterexample: the subject holds no ticket and the body is a line
matching the pattern followed only by one empty line, yet `validate` under
the default configuration returns the last-line violation rather than
`None`: the code compares against the literal final line of `lines()`
(here the empty string), not the final non-empty line. -/
theorem C1_counterexample :
    isTicketMatch (msgTrailingBlank.subject.getD "") = false ∧
    rustLines (msgTrailingBlank.body.getD "").data =
      [['#', 'A', 'B', '-', '1'], []] ∧
    searchMatch jiraToks ['#', 'A', 'B', '-', '1'] = true ∧
    TicketId.default.validate msgTrailingBlank =
      some ⟨Level.Error, lastLineMessage⟩ := by
  decide

/-- C1 (amended): when `body_last_line` is enabled the last-line flag is
satisfied exactly when the pattern matches the body's literal final line as
produced by `lines()` (which is an empty line when the body ends in two or
more line terminators); for every Message whose subject contains no ticket
and whose body's final line matches the pattern, `validate` under the
default configuration returns `None`. -/
theorem C1_last_line_is_literal_final_line (m : Message)
    (hs : isTicketMatch (m.subject.getD "") = false)
    (hl : lastLineMatches (m.body.getD "") = true) :
    TicketId.default.lastLineHasTicket m = true ∧
      TicketId.default.validate m = none := by
  have hllt : TicketId.default.lastLineHasTicket m = true := by
    rw [lastLineHasTicket_eq, hl]; rfl
  refine ⟨hllt, ?_⟩
  have hsu : TicketId.default.subject = true := rfl
  have hbu : TicketId.default.body = true := rfl
  have hun : TicketId.default.unique = false := rfl
  have hmf1 : 1 ≤ TicketId.default.matchFound m := by
    have hcnt := countP_pos_of_lastLineMatches (m.body.getD "") hl
    rw [matchFound_eq, hsu, hbu, hs]
    exact Nat.le_trans hcnt (Nat.le_add_left _ _)
  rw [validate_unfold]
  have hne : (TicketId.default.matchFound m == 0) = false := by
    simp only [beq_eq_false_iff_ne, ne_eq]
    omega
  simp [hne, hllt, hun]

/-- C1 witness: subject without ticket, ticket on the body's final line,
default configuration: the flag is set and no violation is raised. -/
theorem C1_witness :
    TicketId.default.lastLineHasTicket msgTicketLastLine = true ∧
      TicketId.default.validate msgTicketLastLine = none :=
  C1_last_line_is_literal_final_line msgTicketLastLine (by decide) (by decide)

/-- C2: a ticket found in the subject always satisfies the last-line
constraint: subject with a match, non-empty body with a match on a
non-last line and none on the last line, default configuration: `validate`
returns `None`. -/
theorem C2_subject_ticket_satisfies_last_line (m : Message)
    (hs : isTicketMatch (m.subject.getD "") = true)
    (hb : (m.body.getD "") ≠ "")
    (hmid : ((rustLines (m.body.getD "").data).dropLast.any fun l =>
      searchMatch jiraToks l) = true)
    (hlast : lastLineMatches (m.body.getD "") = false) :
    TicketId.default.validate m = none := by
  have hsu : TicketId.default.subject = true := rfl
  have hun : TicketId.default.unique = false := rfl
  have hsht : TicketId.default.subjectHasTicket m = true := by
    rw [subjectHasTicket_eq, hs, hsu]; rfl
  have hmf1 : 1 ≤ TicketId.default.matchFound m := by
    rw [matchFound_eq, hsu]
    simp [hs]
  rw [validate_unfold]
  have hne : (TicketId.default.matchFound m == 0) = false := by
    simp only [beq_eq_false_iff_ne, ne_eq]
    omega
  simp [hne, hsht, hun]

/-- C2 witness: ticket in subject, ticket on the first of two body lines,
none on the last, default configuration: no violation. -/
theorem C2_witness : TicketId.default.validate msgSubjectAndMidBody = none :=
  C2_subject_ticket_satisfies_last_line msgSubjectAndMidBody
    (by decide) (by decide) (by decide) (by decide)

/-- C3 counterexample: a message inside the claim's hypothesis class
(ticket in the subject and on the body's last line) for which `match_found`
is 3, not 2, because the body has a second, non-last matching line. -/
theorem C3_counterexample :
    isTicketMatch (msgThreeTickets.subject.getD "") = true ∧
    lastLineMatches (msgThreeTickets.body.getD "") = true ∧
    uniqueCfg.matchFound msgThreeTickets = 3 := by
  decide

/-- C3 (amended): for every Message whose subject contains a match and
whose body's last line contains a match, `validate` with `unique = true`
(and subject, body, body_last_line all enabled) counts `match_found >= 2`
and returns the duplicated-in-body violation, even though the last-line
constraint is satisfied. -/
theorem C3_unique_rejects_subject_plus_last_line (m : Message)
    (hs : isTicketMatch (m.subject.getD "") = true)
    (hl : lastLineMatches (m.body.getD "") = true) :
    2 ≤ uniqueCfg.matchFound m ∧
      uniqueCfg.validate m =
        some ⟨Level.Error, duplicatedBodyMessage⟩ := by
  have hsu : uniqueCfg.subject = true := rfl
  have hbu : uniqueCfg.body = true := rfl
  have hun : uniqueCfg.unique = true := rfl
  have hcnt := countP_pos_of_lastLineMatches (m.body.getD "") hl
  have hmf2 : 2 ≤ uniqueCfg.matchFound m := by
    rw [matchFound_eq, hsu, hbu, hs]
    exact Nat.add_le_add_left hcnt 1
  refine ⟨hmf2, ?_⟩
  have hllt : uniqueCfg.lastLineHasTicket m = true := by
    rw [lastLineHasTicket_eq, hl]; rfl
  rw [validate_unfold]
  have hne : (uniqueCfg.matchFound m == 0) = false := by
    simp only [beq_eq_false_iff_ne, ne_eq]
    omega
  have hgt : decide (uniqueCfg.matchFound m > 1) = true := by
    simp only [decide_eq_true_eq]
    omega
  simp only [hne, hgt, hllt, hun, Bool.false_and, Bool.true_and,
    Bool.and_true, Bool.and_self, Bool.false_eq_true, if_false, if_true]
  rfl

/-- C3 witness: ticket in the subject and one ticket on the body's last
line: the count is at least 2 and the duplicated-in-body violation is
returned. -/
theorem C3_witness :
    2 ≤ uniqueCfg.matchFound msgSubjectAndLastLine ∧
      uniqueCfg.validate msgSubjectAndLastLine =
        some ⟨Level.Error, duplicatedBodyMessage⟩ :=
  C3_unique_rejects_subject_plus_last_line msgSubjectAndLastLine
    (by decide) (by decide)

/-- C4: `validate` returns the missing-ticket violation (at the resolved
level) exactly when the counted matches equal zero and at least one of the
`subject` or `body` flags is enabled; the branch precedes and so
short-circuits the unique and last-line checks. -/
theorem C4_missing_violation_iff (self : TicketId) (m : Message) :
    self.validate m =
        some ⟨self.level.getD TicketId.LEVEL, missingMessage⟩ ↔
      (self.matchFound m = 0 ∧ (self.subject || self.body) = true) := by
  rw [validate_unfold]
  constructor
  · intro h
    split_ifs at h with h1 h2 h3 h4
    · simp only [Bool.and_eq_true, beq_iff_eq, Bool.or_eq_true] at h1
      refine ⟨h1.1, ?_⟩
      rcases h1.2 with hb | hs
      · simp [hb]
      · simp [hs]
    · simp [duplicatedBodyMessage, missingMessage] at h
    · simp [duplicatedMessage, missingMessage] at h
    · simp [lastLineMessage, missingMessage] at h
  · rintro ⟨hmf, hsb⟩
    have h1 : (self.matchFound m == 0 && (self.body || self.subject)) =
        true := by
      rw [hmf]
      simp only [beq_self_eq_true, Bool.true_and]
      rw [Bool.or_comm]
      exact hsb
    simp [h1]

/-- C5: the subject contributes at most 1 to the count no matter how many
pattern occurrences it contains: subject with at least two occurrences,
body with none, `unique = true` and otherwise default configuration:
`validate` returns `None`. -/
theorem C5_subject_counted_once (m : Message)
    (h2 : 2 ≤ matchPositions jiraToks (m.subject.getD "").data)
    (hnone : ((rustLines (m.body.getD "").data).all fun l =>
      !searchMatch jiraToks l) = true) :
    uniqueCfg.validate m = none := by
  have hs : isTicketMatch (m.subject.getD "") = true :=
    searchMatch_of_positions jiraToks (m.subject.getD "").data
      (Nat.le_trans (by omega) h2)
  have hsu : uniqueCfg.subject = true := rfl
  have hbu : uniqueCfg.body = true := rfl
  have hsht : uniqueCfg.subjectHasTicket m = true := by
    rw [subjectHasTicket_eq, hs, hsu]; rfl
  have hcnt : ((rustLines (m.body.getD "").data).countP fun l =>
      searchMatch jiraToks l) = 0 := by
    refine List.countP_eq_zero.mpr ?_
    intro a ha
    have hal := List.all_eq_true.mp hnone a ha
    simpa using hal
  have hmf : uniqueCfg.matchFound m = 1 := by
    rw [matchFound_eq, hsu, hbu, hcnt]
    simp [hs]
  rw [validate_unfold, hmf]
  simp [hsht]

/-- C5 witness: two ticket occurrences in the subject, none in the body,
`unique = true`: no violation. -/
theorem C5_witness : uniqueCfg.validate msgDoubleSubject = none :=
  C5_subject_counted_once msgDoubleSubject (by decide) (by decide)

end Commitlint
